import Mathlib

/-!
Verification of the `frame` batch-transcoding core: a shallow embedding of
`src-tauri/src/estimation.rs` and `src-tauri/src/conversion.rs`.

Modelling conventions:
* Rust `f64` values are embedded as exact rationals (`ℚ`) for all parsing and
  plumbing, and as real numbers (`ℝ`) where the code applies `log2`/`powf`.
  Rounding error of binary64 arithmetic is outside the model.
* Rust `String` fields stay `String`; the standard-library parsers
  (`str::parse::<f64>`, `u32`, `i32`) are modelled by executable Lean parsers
  restricted to plain decimal literals (no exponent / infinity / NaN forms).
* `ConversionError` keeps only the variant; the formatted message strings are
  display-only in the source and are elided.
* Fallible Rust functions return `Except ConversionError _`.
-/

namespace Frame

/-! ## Character and string utilities (models of Rust `str` operations) -/

def isAsciiDigit (c : Char) : Bool := '0' ≤ c && c ≤ '9'

def digitVal (c : Char) : ℕ := c.toNat - 48

def natOfDigits (cs : List Char) : ℕ :=
  cs.foldl (fun acc c => acc * 10 + digitVal c) 0

/-- ASCII whitespace predicate used by the model of `str::trim`. -/
def isWS (c : Char) : Bool := c = ' ' || c = '\t' || c = '\n' || c = '\r'

/-- Model of Rust `str::trim` (restricted to ASCII whitespace). -/
def trimStr (s : String) : String :=
  ⟨((s.toList.dropWhile isWS).reverse.dropWhile isWS).reverse⟩

def lowerChar (c : Char) : Char :=
  if 'A' ≤ c && c ≤ 'Z' then Char.ofNat (c.toNat + 32) else c

/-- Model of Rust `str::to_lowercase` for ASCII content. -/
def lowerStr (s : String) : String := ⟨s.toList.map lowerChar⟩

/-- Model of Rust `str::eq_ignore_ascii_case`. -/
def eqIgnoreAsciiCase (a b : String) : Bool := lowerStr a = lowerStr b

/-- Predicate `listLeads needle hay`: holds when `needle` is an initial segment of `hay`. -/
def listLeads : List Char → List Char → Bool
  | [], _ => true
  | _ :: _, [] => false
  | a :: as, b :: bs => a = b && listLeads as bs

def listHasSub (needle : List Char) : List Char → Bool
  | [] => needle.isEmpty
  | c :: rest => listLeads needle (c :: rest) || listHasSub needle rest

/-- Model of Rust `str::contains` (substring search). -/
def strContains (s sub : String) : Bool := listHasSub sub.toList s.toList

/-- Model of Rust `str::starts_with`. -/
def strLeads (s pre : String) : Bool := listLeads pre.toList s.toList

/-- Model of Rust `str::split(sep)`: splits on every occurrence, keeping
empty segments, and yields one (empty) segment for the empty string. -/
def splitChar (sep : Char) : List Char → List (List Char)
  | [] => [[]]
  | c :: rest =>
    let r := splitChar sep rest
    if c = sep then [] :: r
    else
      match r with
      | h :: t => (c :: h) :: t
      | [] => [[c]]

/-- Model of Rust `str::split_once(sep)`. -/
def splitOnceChar (sep : Char) : List Char → Option (List Char × List Char)
  | [] => none
  | c :: rest =>
    if c = sep then some ([], rest)
    else (splitOnceChar sep rest).map (fun p => (c :: p.1, p.2))

/-- Model of `str::replace(old, new)` for single characters. -/
def replaceChar (old new : Char) (s : String) : String :=
  ⟨s.toList.map (fun c => if c = old then new else c)⟩

/-- Model of Rust `str::parse::<f64>` restricted to plain decimal literals:
optional sign, digits, optional single fraction point, at least one digit.
Exponent, `inf` and `NaN` forms are outside the model, and the value is kept
as an exact rational rather than the nearest binary64. -/
def parseF64 (s : String) : Option ℚ :=
  let cs := s.toList
  let signAndRest : ℚ × List Char :=
    match cs with
    | '+' :: rest => (1, rest)
    | '-' :: rest => (-1, rest)
    | _ => (1, cs)
  let sign := signAndRest.1
  let body := signAndRest.2
  let ip := body.takeWhile isAsciiDigit
  let rest := body.dropWhile isAsciiDigit
  match rest with
  | [] => if ip.isEmpty then none else some (sign * natOfDigits ip)
  | '.' :: frac =>
    if frac.all isAsciiDigit && !(ip.isEmpty && frac.isEmpty) then
      some (sign * ((natOfDigits ip : ℚ) + (natOfDigits frac : ℚ) / 10 ^ frac.length))
    else none
  | _ => none

/-- Model of Rust `u32::from_str`: optional leading `+`, digits, range check. -/
def parseU32 (s : String) : Option ℕ :=
  let cs := s.toList
  let body := match cs with | '+' :: rest => rest | _ => cs
  if body.isEmpty || !body.all isAsciiDigit then none
  else
    let n := natOfDigits body
    if n < 2 ^ 32 then some n else none

/-- Model of Rust `i32::from_str`: optional sign, digits, range check. -/
def parseI32 (s : String) : Option ℤ :=
  let cs := s.toList
  let signAndRest : ℤ × List Char :=
    match cs with
    | '+' :: rest => (1, rest)
    | '-' :: rest => (-1, rest)
    | _ => (1, cs)
  let body := signAndRest.2
  if body.isEmpty || !body.all isAsciiDigit then none
  else
    let n : ℤ := natOfDigits body
    let v := signAndRest.1 * n
    if -(2 ^ 31) ≤ v && v < 2 ^ 31 then some v else none

/-! ## Data model (from `conversion.rs` / `estimation.rs`) -/

inductive ConversionError where
  | shell
  | io
  | json
  | channel
  | probe
  | worker
  | invalidInput
  | taskNotFound
  deriving DecidableEq, Repr

deriving instance DecidableEq for Except

inductive MetadataMode where
  | preserve
  | clean
  | replace
  deriving DecidableEq, Repr

structure MetadataConfig where
  mode : MetadataMode
  title : Option String
  artist : Option String
  album : Option String
  genre : Option String
  date : Option String
  comment : Option String
  deriving DecidableEq, Repr

structure ConversionConfig where
  container : String
  videoCodec : String
  videoBitrateMode : String
  videoBitrate : String
  audioCodec : String
  audioBitrate : String
  audioChannels : String
  audioVolume : ℚ
  audioNormalize : Bool
  selectedAudioTracks : List ℕ
  resolution : String
  customWidth : Option String
  customHeight : Option String
  scalingAlgorithm : String
  fps : String
  crf : ℕ
  quality : ℕ
  preset : String
  startTime : Option String
  endTime : Option String
  metadata : MetadataConfig
  deriving DecidableEq, Repr

structure AudioTrack where
  index : ℕ
  codec : String
  channels : String
  language : Option String
  label : Option String
  bitrateKbps : Option ℚ
  deriving DecidableEq, Repr

structure ProbeMetadata where
  duration : Option String
  bitrate : Option String
  videoCodec : Option String
  audioCodec : Option String
  resolution : Option String
  frameRate : Option ℚ
  width : Option ℕ
  height : Option ℕ
  videoBitrateKbps : Option ℚ
  audioTracks : List AudioTrack
  deriving DecidableEq, Repr

/-- Estimate record `OutputEstimate`; the three kbps fields are rounded to whole kbps
(modelled as `ℤ`; all rounded values are nonnegative), the size stays real. -/
structure OutputEstimate where
  videoKbps : ℤ
  audioKbps : ℤ
  totalKbps : ℤ
  sizeMb : Option ℝ

/-! ## Estimation engine: parsing helpers (from `estimation.rs`) -/

def FALLBACK_AUDIO_BITRATE_KBPS : ℚ := 128
/-- Constant `CONTAINER_CONTENT_RATIO` in the source (0.95, assumes about 5% overhead);
renamed here for technical reasons only. -/
def CONTAINER_CONTENT_FRACTION : ℚ := 0.95
def DEFAULT_H264_BITS_PER_PIXEL : ℚ := 0.075
def DEFAULT_H265_BITS_PER_PIXEL : ℚ := 0.040
def DEFAULT_VP9_BITS_PER_PIXEL : ℚ := 0.050
def DEFAULT_AV1_BITS_PER_PIXEL : ℚ := 0.032
def DEFAULT_PRORES_BITS_PER_PIXEL : ℚ := 1.9

def parse_frame_rate_string (value : Option String) : Option ℚ :=
  match value with
  | none => none
  | some v =>
    let v := trimStr v
    if v = "" || eqIgnoreAsciiCase v "n/a" then none
    else
      match splitOnceChar '/' v.toList with
      | some (num, den) =>
        match parseF64 (trimStr ⟨num⟩), parseF64 (trimStr ⟨den⟩) with
        | some n, some d => if d = 0 then none else some (n / d)
        | _, _ => none
      | none => parseF64 v

def parse_probe_bitrate (raw : Option String) : Option ℚ :=
  match raw with
  | none => none
  | some r =>
    let r := trimStr r
    if eqIgnoreAsciiCase r "n/a" || r = "" then none
    else
      match parseF64 r with
      | none => none
      | some numeric => if numeric ≤ 0 then none else some (numeric / 1000)

def is_audio_only_container (container : String) : Bool :=
  match lowerStr container with
  | "mp3" | "wav" | "flac" | "aac" | "m4a" => true
  | _ => false

def parse_duration_to_seconds (duration : Option String) : Option ℚ :=
  match duration with
  | none => none
  | some s =>
    match parseF64 s with
    | some seconds => some seconds
    | none =>
      match (splitChar ':' s.toList).map (fun p => (⟨p⟩ : String)) with
      | [hs, ms, ss] =>
        match parseF64 (trimStr hs), parseF64 (trimStr ms), parseF64 (trimStr ss) with
        | some h, some m, some sec => some (h * 3600 + m * 60 + sec)
        | _, _, _ => none
      | _ => none

def parse_resolution (metadataResolution : Option String) : Option (ℕ × ℕ) :=
  match metadataResolution with
  | none => none
  | some r =>
    match (splitChar 'x' r.toList).map (fun p => (⟨p⟩ : String)) with
    | [ws, hs] =>
      match parseU32 ws, parseU32 hs with
      | some w, some h => some (w, h)
      | _, _ => none
    | _ => none

structure VideoDimensions where
  width : ℕ
  height : ℕ
  deriving DecidableEq, Repr

def VideoDimensions.pixelRate (d : VideoDimensions) (fps : ℚ) : ℚ :=
  (d.width : ℚ) * (d.height : ℚ) * fps

def DEFAULT_DIMENSIONS : VideoDimensions := ⟨1280, 720⟩

def DEFAULT_ASPECT : ℚ := 16 / 9
def DEFAULT_FRAME_RATE : ℚ := 30

/-- Model of Rust `f64::round` (half away from zero) for the nonnegative
values this code rounds, over `ℚ`. -/
def roundQ (x : ℚ) : ℤ := ⌊x + 1 / 2⌋

/-- Model of Rust `f64::round` (half away from zero) for the nonnegative
values this code rounds, over `ℝ`. -/
noncomputable def rustRound (x : ℝ) : ℤ := ⌊x + 1 / 2⌋

def metadata_dimensions (metadata : Option ProbeMetadata) : Option VideoDimensions :=
  metadata.bind fun meta =>
    let viaWH : Option VideoDimensions :=
      match meta.width, meta.height with
      | some w, some h => if 0 < w && 0 < h then some ⟨w, h⟩ else none
      | _, _ => none
    match viaWH with
    | some d => some d
    | none => (parse_resolution meta.resolution).map fun p => ⟨p.1, p.2⟩

def nominal_width_for_height (height : ℕ) : ℕ :=
  match height with
  | 2160 => 3840
  | 1440 => 2560
  | 1080 => 1920
  | 720 => 1280
  | 576 => 1024
  | 480 => 854
  | _ => (roundQ ((height : ℚ) * DEFAULT_ASPECT)).toNat

def derive_dimension_from_aspect (known : ℕ) (aspect : ℚ) (isWidthKnown : Bool) :
    VideoDimensions :=
  if isWidthKnown then
    ⟨known, (max (roundQ ((known : ℚ) / aspect)) 1).toNat⟩
  else
    ⟨(max (roundQ ((known : ℚ) * aspect)) 1).toNat, known⟩

def resolution_from_height (height : ℕ) (source : Option VideoDimensions) :
    VideoDimensions :=
  let width :=
    if height = 0 then DEFAULT_DIMENSIONS.width
    else
      match source with
      | some dim => (max (roundQ ((height : ℚ) * ((dim.width : ℚ) / (dim.height : ℚ)))) 1).toNat
      | none => nominal_width_for_height height
  ⟨width, max height 1⟩

def parse_custom_dimension (value : Option String) :
    Except ConversionError (Option ℕ) :=
  match value with
  | none => .ok none
  | some raw =>
    let trimmed := trimStr raw
    if trimmed = "" || trimmed = "-1" then .ok none
    else
      match parseI32 trimmed with
      | none => .error .invalidInput
      | some parsed =>
        if parsed ≤ 0 then .error .invalidInput else .ok (some parsed.toNat)

def custom_dimensions (config : ConversionConfig) (source : Option VideoDimensions) :
    Except ConversionError VideoDimensions :=
  match parse_custom_dimension config.customWidth with
  | .error e => .error e
  | .ok parsedWidth =>
    match parse_custom_dimension config.customHeight with
    | .error e => .error e
    | .ok parsedHeight =>
      match parsedWidth, parsedHeight with
      | some w, some h => .ok ⟨w, h⟩
      | some w, none =>
        let aspect := (source.map fun dim => (dim.width : ℚ) / (dim.height : ℚ)).getD DEFAULT_ASPECT
        .ok (derive_dimension_from_aspect w aspect true)
      | none, some h =>
        let aspect := (source.map fun dim => (dim.width : ℚ) / (dim.height : ℚ)).getD DEFAULT_ASPECT
        .ok (derive_dimension_from_aspect h aspect false)
      | none, none => .ok (source.getD DEFAULT_DIMENSIONS)

def determine_target_dimensions (config : ConversionConfig)
    (metadata : Option ProbeMetadata) : Except ConversionError VideoDimensions :=
  let sourceDimensions := metadata_dimensions metadata
  match config.resolution with
  | "original" => .ok (sourceDimensions.getD DEFAULT_DIMENSIONS)
  | "1080p" => .ok (resolution_from_height 1080 sourceDimensions)
  | "720p" => .ok (resolution_from_height 720 sourceDimensions)
  | "480p" => .ok (resolution_from_height 480 sourceDimensions)
  | "custom" => custom_dimensions config sourceDimensions
  | _ => .ok (sourceDimensions.getD DEFAULT_DIMENSIONS)

def determine_target_fps (config : ConversionConfig)
    (metadata : Option ProbeMetadata) : Except ConversionError ℚ :=
  if config.fps = "original" then
    .ok ((metadata.bind fun meta => meta.frameRate).getD DEFAULT_FRAME_RATE)
  else
    match parseF64 (trimStr config.fps) with
    | none => .error .invalidInput
    | some parsed => if parsed ≤ 0 then .error .invalidInput else .ok parsed

def parse_config_bitrate (value : String) : Except ConversionError ℚ :=
  let trimmed := trimStr value
  if trimmed = "" then .error .invalidInput
  else
    match parseF64 (replaceChar ',' '.' trimmed) with
    | none => .error .invalidInput
    | some parsed => if parsed ≤ 0 then .error .invalidInput else .ok parsed

/-- Order-preserving de-duplication, modelling the `HashSet::insert` loop in
`resolve_audio_track_ids`. -/
def dedupFirst (seen : List ℕ) : List ℕ → List ℕ
  | [] => []
  | x :: xs => if x ∈ seen then dedupFirst seen xs else x :: dedupFirst (x :: seen) xs

def resolve_audio_track_ids (config : ConversionConfig)
    (metadata : Option ProbeMetadata) (audioOnly : Bool) : List ℕ :=
  if config.selectedAudioTracks ≠ [] then dedupFirst [] config.selectedAudioTracks
  else
    match metadata.bind fun meta => meta.audioTracks.head? with
    | some first => [first.index]
    | none => if audioOnly then [0] else []

/-- Sum of the known probed bitrates of the selected tracks (the `sum`
accumulator of the `"copy"` branch). -/
def probed_track_sum (meta : ProbeMetadata) (trackIds : List ℕ) : ℚ :=
  trackIds.foldl
    (fun acc id =>
      match meta.audioTracks.find? (fun t => t.index = id) with
      | some track =>
        match track.bitrateKbps with
        | some br => acc + br
        | none => acc
      | none => acc)
    0

def estimate_audio_bitrate_kbps (config : ConversionConfig)
    (metadata : Option ProbeMetadata) (audioOnly : Bool) :
    Except ConversionError ℚ :=
  let trackIds := resolve_audio_track_ids config metadata audioOnly
  if trackIds = [] then .ok 0
  else
    -- the non-"copy" (or "copy" without metadata) tail of the function
    let tail : Except ConversionError ℚ :=
      if strLeads (lowerStr config.audioCodec) "pcm_" then
        let parsed := (parseF64 config.audioBitrate).getD 0
        let bitrate := if 0 < parsed then parsed else 1536
        .ok (bitrate * trackIds.length)
      else
        match parse_config_bitrate config.audioBitrate with
        | .error e => .error e
        | .ok perTrack => .ok (perTrack * trackIds.length)
    if eqIgnoreAsciiCase config.audioCodec "copy" then
      match metadata with
      | some meta =>
        let sum := probed_track_sum meta trackIds
        if 0 < sum then .ok sum
        else .ok (FALLBACK_AUDIO_BITRATE_KBPS * trackIds.length)
      | none => tail
    else tail

def container_overhead_factor (container : String) : ℚ :=
  match lowerStr container with
  | "ts" | "m2ts" => 1.04
  | "mkv" | "webm" => 1.01
  | "mp4" | "m4v" | "mov" => 1.008
  | _ => 1.01

structure CodecReference where
  referenceCrf : ℚ
  referenceBitsPerPixel : ℚ
  deriving DecidableEq, Repr

def codec_reference (codec : String) : CodecReference :=
  match lowerStr codec with
  | "libx265" | "h265" | "hevc" => ⟨28, DEFAULT_H265_BITS_PER_PIXEL⟩
  | "libvpx-vp9" | "vp9" => ⟨31, DEFAULT_VP9_BITS_PER_PIXEL⟩
  | "libaom-av1" | "av1" | "libsvtav1" => ⟨32, DEFAULT_AV1_BITS_PER_PIXEL⟩
  | "prores" | "prores_ks" => ⟨9, DEFAULT_PRORES_BITS_PER_PIXEL⟩
  | "h264_videotoolbox" | "h264_nvenc" => ⟨23, 0.045⟩
  | _ => ⟨23, DEFAULT_H264_BITS_PER_PIXEL⟩

def source_video_bitrate_kbps (metadata : Option ProbeMetadata) : Option ℚ :=
  metadata.bind fun meta =>
    let viaContainer : Option ℚ :=
      (parse_probe_bitrate meta.bitrate).map fun containerKbps =>
        let audioSum : ℚ := (meta.audioTracks.filterMap fun track => track.bitrateKbps).sum
        max (containerKbps * CONTAINER_CONTENT_FRACTION - audioSum) 0
    match meta.videoBitrateKbps with
    | some videoKbps => if 0 < videoKbps then some videoKbps else viaContainer
    | none => viaContainer

/-- The hardware-encoder test (`contains("videotoolbox") || contains("nvenc")`)
and the resulting effective CRF. -/
def effective_crf (config : ConversionConfig) : ℚ :=
  if strContains config.videoCodec "videotoolbox" || strContains config.videoCodec "nvenc" then
    (100 - (config.quality : ℚ)) / 1.96
  else (config.crf : ℚ)

noncomputable def reference_bitrate_from_quality (codec : String) (crf : ℚ)
    (pixelRate : ℚ) : ℝ :=
  let ref := codec_reference codec
  let qualityFactor : ℝ := (2 : ℝ) ^ ((((ref.referenceCrf - crf : ℚ)) : ℝ) / 6)
  ((ref.referenceBitsPerPixel : ℝ) * qualityFactor * (pixelRate : ℝ)) / 1000

/-- Resolution of the source frame rate in `estimate_quality_video_bitrate`
(`metadata.frame_rate` filtered to positive values, else the target rate). -/
def source_fps_resolved (metadata : Option ProbeMetadata) (targetFps : ℚ) : ℚ :=
  match metadata.bind fun meta => meta.frameRate with
  | some f => if 0 < f then f else targetFps
  | none => targetFps

/-- The `source_pixel_rate` binding of `estimate_quality_video_bitrate`
(source dimensions default to the target ones; floored at 1). -/
def source_pixel_rate (metadata : Option ProbeMetadata)
    (targetDimensions : VideoDimensions) (targetFps : ℚ) : ℚ :=
  max (((metadata_dimensions metadata).getD targetDimensions).pixelRate
    (source_fps_resolved metadata targetFps)) 1

/-- Function `estimate_quality_video_bitrate`: the `is_finite` guard of the source is
always satisfied in this exact-arithmetic model. -/
noncomputable def estimate_quality_video_bitrate (config : ConversionConfig)
    (metadata : Option ProbeMetadata) (targetDimensions : VideoDimensions)
    (targetFps : ℚ) : ℝ :=
  let targetPixelRate : ℚ := targetDimensions.pixelRate targetFps
  let sourcePixelRate : ℚ := source_pixel_rate metadata targetDimensions targetFps
  let pixelQuot : ℚ := targetPixelRate / sourcePixelRate
  let ecrf : ℚ := effective_crf config
  match source_video_bitrate_kbps metadata with
  | some sourceBitrate =>
    let ref := codec_reference config.videoCodec
    let sourceBitsPerPixel : ℚ := sourceBitrate * 1000 / sourcePixelRate
    if 0 < sourceBitsPerPixel && 0 < ref.referenceBitsPerPixel then
      let qualityQuot : ℚ := sourceBitsPerPixel / ref.referenceBitsPerPixel
      if 0 < qualityQuot then
        let sourceCrf : ℝ := (ref.referenceCrf : ℝ) - 6 * Real.logb 2 (qualityQuot : ℝ)
        let qualityFactor : ℝ := (2 : ℝ) ^ ((sourceCrf - (ecrf : ℝ)) / 6)
        max ((sourceBitrate : ℝ) * (pixelQuot : ℝ) * qualityFactor) 0
      else max (((sourceBitrate * pixelQuot : ℚ)) : ℝ) 0
    else max (((sourceBitrate * pixelQuot : ℚ)) : ℝ) 0
  | none => reference_bitrate_from_quality config.videoCodec ecrf targetPixelRate

/-- The video branch of `estimate_output` (audio-only container, explicit
bitrate mode, or the quality heuristic). -/
noncomputable def video_kbps_result (config : ConversionConfig)
    (metadata : Option ProbeMetadata) (targetDimensions : VideoDimensions)
    (targetFps : ℚ) : Except ConversionError ℝ :=
  if is_audio_only_container config.container then .ok 0
  else if config.videoBitrateMode = "bitrate" then
    match parse_config_bitrate config.videoBitrate with
    | .error e => .error e
    | .ok v => .ok (v : ℝ)
  else .ok (estimate_quality_video_bitrate config metadata targetDimensions targetFps)

noncomputable def estimate_output (config : ConversionConfig)
    (metadata : Option ProbeMetadata) : Except ConversionError OutputEstimate :=
  let audioOnly := is_audio_only_container config.container
  match determine_target_dimensions config metadata with
  | .error e => .error e
  | .ok targetDimensions =>
    match determine_target_fps config metadata with
    | .error e => .error e
    | .ok targetFps =>
      match video_kbps_result config metadata targetDimensions targetFps with
      | .error e => .error e
      | .ok videoKbps =>
        match estimate_audio_bitrate_kbps config metadata audioOnly with
        | .error e => .error e
        | .ok audioKbps =>
          let totalPayloadKbps : ℝ := videoKbps + (audioKbps : ℝ)
          let totalKbpsWithOverhead : ℝ :=
            totalPayloadKbps * ((container_overhead_factor config.container : ℚ) : ℝ)
          let sizeMb : Option ℝ :=
            Option.map (fun seconds : ℚ => totalKbpsWithOverhead * ((seconds : ℚ) : ℝ) / 8 / 1000)
              (parse_duration_to_seconds (metadata.bind fun m => m.duration))
          .ok ⟨rustRound videoKbps, rustRound ((audioKbps : ℚ) : ℝ),
               rustRound totalKbpsWithOverhead, sizeMb⟩

/-! ## Worker: output path computation (from `conversion.rs`) -/

/-- Model of `Path::file_name` (Unix paths without a trailing separator):
the characters after the last `/`. -/
def fileName (p : String) : String :=
  ⟨(p.toList.reverse.takeWhile (fun c => c ≠ '/')).reverse⟩

/-- Model of `Path::extension` applied to a file name: the portion after the
last `.`, unless there is no `.` or the name is a lone dotfile. -/
def nameExt (n : String) : Option String :=
  match splitChar '.' n.toList with
  | [] => none
  | [_] => none
  | [[], _] => none
  | parts => (parts.getLast?).map fun l => (⟨l⟩ : String)

/-- Model of `Path::extension` of a whole path: the extension of its file name. -/
def pathExt (p : String) : Option String := nameExt (fileName p)

/-- Model of the base-directory computation in `build_output_path`:
`match input_path.parent() { Some(parent) if nonempty => parent, _ => "" }`,
for Unix paths without `.`/`..` components or a trailing separator. -/
def parentBase (p : String) : String :=
  let cs := p.toList
  let nameLen := (cs.reverse.takeWhile (fun c => c ≠ '/')).length
  let rest := cs.take (cs.length - nameLen)
  let trimmedRest := (rest.reverse.dropWhile (fun c => c = '/')).reverse
  if trimmedRest = [] then
    if rest.head? = some '/' && nameLen ≠ 0 then "/" else ""
  else ⟨trimmedRest⟩

/-- Model of `PathBuf::push` for Unix paths: an absolute component replaces
the base, otherwise it is joined with a `/` separator. -/
def pushPath (base component : String) : String :=
  if strLeads component "/" then component
  else if base = "" then component
  else if base.toList.getLast? = some '/' then base ++ component
  else base ++ "/" ++ component

def build_output_path (filePath container : String) (outputName : Option String) :
    String :=
  let custom : Option String :=
    outputName.bind fun name =>
      let trimmed := trimStr name
      if trimmed = "" then none else some trimmed
  match custom with
  | some custom =>
    let base := parentBase filePath
    let output := pushPath base custom
    if (pathExt output).isNone then
      -- `set_extension` is a no-op when the path has no file name
      if fileName output = "" then output else output ++ "." ++ container
    else output
  | none => filePath ++ "_converted." ++ container

/-! ## Worker: input validation and queueing (from `conversion.rs`) -/

/-- Abstract view of the filesystem facts `validate_task_input` consults
(`Path::exists` and `Path::is_file`). -/
structure FileInfo where
  pathExists : Bool
  pathIsFile : Bool
  deriving DecidableEq, Repr

/-- The `config.resolution == "custom"` dimension checks of
`validate_task_input`. -/
def custom_resolution_check (config : ConversionConfig) : Except ConversionError Unit :=
  if config.resolution = "custom" then
    let wStr := config.customWidth.getD "-1"
    let hStr := config.customHeight.getD "-1"
    match parseI32 wStr with
    | none => .error .invalidInput
    | some w =>
      match parseI32 hStr with
      | none => .error .invalidInput
      | some h =>
        if w = 0 || h = 0 then .error .invalidInput
        else if w < -1 || h < -1 then .error .invalidInput
        else .ok ()
  else .ok ()

/-- The explicit-bitrate check of `validate_task_input`: it is skipped for
audio-only target containers. -/
def video_bitrate_check (config : ConversionConfig) : Except ConversionError Unit :=
  if config.videoBitrateMode = "bitrate" && !is_audio_only_container config.container then
    match parseF64 config.videoBitrate with
    | none => .error .invalidInput
    | some bitrate => if bitrate ≤ 0 then .error .invalidInput else .ok ()
  else .ok ()

def validate_task_input (fs : String → FileInfo) (filePath : String)
    (config : ConversionConfig) : Except ConversionError Unit :=
  if !(fs filePath).pathExists then .error .invalidInput
  else if !(fs filePath).pathIsFile then .error .invalidInput
  else
    match custom_resolution_check config with
    | .error e => .error e
    | .ok _ => video_bitrate_check config

structure ConversionTask where
  id : String
  filePath : String
  outputName : Option String
  config : ConversionConfig
  deriving DecidableEq, Repr

/-- Command `queue_conversion`: validates, then sends `Enqueue(task)` to the
coordinator. An `ok` result carries the task that was enqueued; channel
transport failures are outside the model. -/
def queue_conversion (fs : String → FileInfo) (id filePath : String)
    (outputName : Option String) (config : ConversionConfig) :
    Except ConversionError ConversionTask :=
  match validate_task_input fs filePath config with
  | .error e => .error e
  | .ok _ => .ok ⟨id, filePath, outputName, config⟩

/-! ## Process controller (from `conversion.rs`, Unix branch) -/

inductive OsCall where
  | sigstop (pid : ℕ)
  | sigcont (pid : ℕ)
  | sigkill (pid : ℕ)
  deriving DecidableEq, Repr

/-- Operation `pause_task`: the active-job table lookup and the signal it sends.
`osOk` models whether a given OS signal call succeeds; the second component
is the list of OS calls performed. -/
def pause_task (tasks : String → Option ℕ) (osOk : OsCall → Bool) (id : String) :
    Except ConversionError Unit × List OsCall :=
  match tasks id with
  | some pid =>
    if osOk (.sigstop pid) then (.ok (), [.sigstop pid])
    else (.error .shell, [.sigstop pid])
  | none => (.error .taskNotFound, [])

def resume_task (tasks : String → Option ℕ) (osOk : OsCall → Bool) (id : String) :
    Except ConversionError Unit × List OsCall :=
  match tasks id with
  | some pid =>
    if osOk (.sigcont pid) then (.ok (), [.sigcont pid])
    else (.error .shell, [.sigcont pid])
  | none => (.error .taskNotFound, [])

/-- Operation `cancel_task`: with an active record, `SIGCONT` is sent first with its
result discarded, then `SIGKILL`; without one, success with no OS call. -/
def cancel_task (tasks : String → Option ℕ) (osOk : OsCall → Bool) (id : String) :
    Except ConversionError Unit × List OsCall :=
  match tasks id with
  | some pid =>
    -- `let _ = kill(pid, SIGCONT)`: best-effort, failure ignored
    if osOk (.sigkill pid) then (.ok (), [.sigcont pid, .sigkill pid])
    else (.error .shell, [.sigcont pid, .sigkill pid])
  | none => (.ok (), [])

/-! ## Coordinator (from `ConversionManager`) -/

def DEFAULT_MAX_CONCURRENCY : ℕ := 2

/-- The `while running_tasks.len() < limit` launch loop of `process_queue`,
after the limit has been clamped. Launching a task inserts its id into the
running set. -/
def processQueueLoop (limit : ℕ) (queue : List ConversionTask)
    (running : Finset String) : List ConversionTask × Finset String :=
  match queue with
  | [] => ([], running)
  | t :: rest =>
    if running.card < limit then processQueueLoop limit rest (insert t.id running)
    else (t :: rest, running)

/-- Scheduling pass `process_queue`: reads the stored concurrency value and clamps it to at
least 1 before the launch loop. -/
def process_queue (stored : ℕ) (queue : List ConversionTask)
    (running : Finset String) : List ConversionTask × Finset String :=
  processQueueLoop (max stored 1) queue running

/-- A coordinator message, together with the externally invoked
`update_max_concurrency` store modelled as an interleaved transition. -/
inductive CoordMsg where
  | enqueue (task : ConversionTask)
  | started (id : String) (pid : ℕ)
  | completed (id : String)
  | errored (id : String)
  | setMax (value : ℕ)
  deriving DecidableEq, Repr

/-- Coordinator-owned state: pending queue, running set, active-job table
(job id to process id), and the stored concurrency value. -/
structure MState where
  queue : List ConversionTask
  running : Finset String
  active : List (String × ℕ)
  maxConc : ℕ
  deriving DecidableEq

def initState : MState := ⟨[], ∅, [], DEFAULT_MAX_CONCURRENCY⟩

/-- One message of the coordinator loop. `setMax 0` is rejected by
`update_max_concurrency` and leaves the state unchanged. -/
def step (s : MState) (msg : CoordMsg) : MState :=
  match msg with
  | .enqueue task =>
    let afterPush := s.queue ++ [task]
    let result := process_queue s.maxConc afterPush s.running
    { s with queue := result.1, running := result.2 }
  | .started id pid =>
    { s with active := (id, pid) :: s.active.filter (fun e => e.1 ≠ id) }
  | .completed id =>
    let running := s.running.erase id
    let active := s.active.filter (fun e => e.1 ≠ id)
    let result := process_queue s.maxConc s.queue running
    { s with queue := result.1, running := result.2, active := active }
  | .errored id =>
    let running := s.running.erase id
    let active := s.active.filter (fun e => e.1 ≠ id)
    let result := process_queue s.maxConc s.queue running
    { s with queue := result.1, running := result.2, active := active }
  | .setMax value =>
    if value = 0 then s else { s with maxConc := value }

/-- A state of the coordinator reachable from start-up by some message
sequence. -/
def Reachable (s : MState) : Prop :=
  ∃ msgs : List CoordMsg, List.foldl step initState msgs = s

/-! ## Spec-level restatement used for the output-path claim -/

/-- Restatement of the spec's output-path rule, for comparison with the
source-derived `build_output_path`: a non-blank custom name is placed beside
the source file, receiving the target container as its extension only if the
name has none of its own; otherwise the output is the full source path with
the fixed suffix appended. -/
def buildOutputPathSpec (filePath container : String) (outputName : Option String) :
    String :=
  match outputName with
  | some name =>
    let trimmed := trimStr name
    if trimmed = "" then filePath ++ "_converted." ++ container
    else
      let placed := pushPath (parentBase filePath) trimmed
      if (nameExt trimmed).isNone then placed ++ "." ++ container else placed
  | none => filePath ++ "_converted." ++ container

/-! ## Concrete inputs used by the claims -/

def emptyMetadataConfig : MetadataConfig := ⟨.preserve, none, none, none, none, none, none⟩

/-- The sample configuration of the source's tests (`sample_config("mp4")`). -/
def sampleConfig : ConversionConfig :=
  ⟨"mp4", "libx264", "crf", "5000", "aac", "128", "original", 100, false, [],
   "original", none, none, "bicubic", "original", 23, 50, "medium", none, none,
   emptyMetadataConfig⟩

/-- Example A configuration: container mp4, codec libx264, CRF mode, crf 23. -/
def exampleAConfig : ConversionConfig := sampleConfig

/-- Example A metadata: 1920x1080, 30 fps, 4000 kbps video, 60 s duration,
one audio track at 128 kbps. -/
def exampleAMeta : ProbeMetadata :=
  ⟨some "60", none, some "h264", some "aac", some "1920x1080", some 30, none, none,
   some 4000, [⟨0, "aac", "2", none, none, some 128⟩]⟩

/-- Example B configuration: no metadata, resolution 720p, fps 30, crf 23. -/
def exampleBConfig : ConversionConfig :=
  { sampleConfig with resolution := "720p", fps := "30" }

/-- Configuration for the mixed known/unknown "copy" bitrate scenario:
explicit video bitrate so no quality heuristic is involved. -/
def copyMixConfig : ConversionConfig :=
  { sampleConfig with
      videoBitrateMode := "bitrate", videoBitrate := "1000",
      audioCodec := "copy", selectedAudioTracks := [0, 1] }

/-- Metadata with one probed 200 kbps audio track and one track of unknown
bitrate. -/
def copyMixMeta : ProbeMetadata :=
  ⟨none, none, none, none, none, some 30, none, none, none,
   [⟨0, "aac", "2", none, none, some 200⟩, ⟨1, "ac3", "6", none, none, none⟩]⟩

/-- Audio-only-container configuration used to refute strict CRF
monotonicity of the rounded video field. -/
def mp3Config : ConversionConfig := { sampleConfig with container := "mp3" }

/-- The audio-only configuration with a strictly larger CRF, otherwise
identical to `mp3Config`. -/
def mp3HighCrfConfig : ConversionConfig := { sampleConfig with container := "mp3", crf := 24 }

/-- Configuration with explicit-bitrate mode, a non-numeric video bitrate and
an audio-only target container. -/
def badBitrateMp3Config : ConversionConfig :=
  { sampleConfig with
      container := "mp3", videoBitrateMode := "bitrate", videoBitrate := "notanumber" }

/-- Filesystem in which every path is an existing regular file. -/
def allFilesFs : String → FileInfo := fun _ => ⟨true, true⟩

/-- Active-job table with a single record: job "a" runs as process 42. -/
def oneJobTable : String → Option ℕ := fun s => if s = "a" then some 42 else none

/-- An OS in which every signal call succeeds. -/
def osAllOk : OsCall → Bool := fun _ => true

def taskOne : ConversionTask := ⟨"t1", "/tmp/one.mov", none, sampleConfig⟩
def taskTwo : ConversionTask := ⟨"t2", "/tmp/two.mov", none, sampleConfig⟩

/-- Configurations for the "copy with absent metadata" claim. -/
def copyNoMetaVideoConfig : ConversionConfig :=
  { sampleConfig with audioCodec := "copy" }

def copyNoMetaMp3Config : ConversionConfig :=
  { sampleConfig with container := "mp3", audioCodec := "copy" }

end Frame

namespace Frame

/-- Claim C6: for a job id with no entry in the active-job table, pause and
resume return a not-found error and cancel succeeds without performing any OS
call; for an id with an entry, cancel sends a best-effort SIGCONT whose
failure is ignored and then the hard SIGKILL. -/
theorem c6_pause_resume_cancel (tasks : String → Option ℕ) (osOk : OsCall → Bool)
    (id : String) :
    (tasks id = none →
      pause_task tasks osOk id = (.error .taskNotFound, [])
      ∧ resume_task tasks osOk id = (.error .taskNotFound, [])
      ∧ cancel_task tasks osOk id = (.ok (), []))
    ∧ (∀ pid, tasks id = some pid →
      cancel_task tasks osOk id =
        ((if osOk (.sigkill pid) then .ok () else .error .shell),
         [.sigcont pid, .sigkill pid])) := by
  constructor
  · intro h
    simp [pause_task, resume_task, cancel_task, h]
  · intro pid h
    simp only [cancel_task, h]
    by_cases hk : osOk (.sigkill pid) <;> simp [hk]

theorem c6_witness :
    oneJobTable "b" = none
    ∧ pause_task oneJobTable osAllOk "b" = (.error .taskNotFound, [])
    ∧ resume_task oneJobTable osAllOk "b" = (.error .taskNotFound, [])
    ∧ cancel_task oneJobTable osAllOk "b" = (.ok (), [])
    ∧ oneJobTable "a" = some 42
    ∧ cancel_task oneJobTable osAllOk "a" = (.ok (), [.sigcont 42, .sigkill 42]) := by
  have h1 := (c6_pause_resume_cancel oneJobTable osAllOk "b").1 rfl
  have h2 := (c6_pause_resume_cancel oneJobTable osAllOk "a").2 42 rfl
  exact ⟨rfl, h1.1, h1.2.1, h1.2.2, rfl, by simpa using h2⟩

/-- Claim C9: every scheduling pass clamps the stored concurrency value to at
least 1, and with a stored value of 0, a non-empty queue and no running jobs
it still launches exactly one job. -/
theorem c9_effective_limit_clamped :
    (∀ stored queue running,
      process_queue stored queue running = processQueueLoop (max stored 1) queue running)
    ∧ (∀ (t : ConversionTask) (rest : List ConversionTask),
      process_queue 0 (t :: rest) ∅ = (rest, {t.id})) := by
  constructor
  · intro stored queue running
    rfl
  · intro t rest
    cases rest with
    | nil => simp [process_queue, processQueueLoop]
    | cons r rs => simp [process_queue, processQueueLoop]

lemma custom_check_err {config : ConversionConfig} {e : ConversionError}
    (h : custom_resolution_check config = .error e) : e = .invalidInput := by
  unfold custom_resolution_check at h
  split at h <;> [skip; exact absurd h (by simp)]
  dsimp only at h
  split at h
  · exact ((Except.error.injEq _ _).mp h).symm
  split at h
  · exact ((Except.error.injEq _ _).mp h).symm
  split at h
  · exact ((Except.error.injEq _ _).mp h).symm
  split at h
  · exact ((Except.error.injEq _ _).mp h).symm
  · exact absurd h (by simp)

lemma video_check_bad {config : ConversionConfig}
    (hmode : config.videoBitrateMode = "bitrate")
    (hcont : is_audio_only_container config.container = false)
    (hbad : parseF64 config.videoBitrate = none
            ∨ ∃ b, parseF64 config.videoBitrate = some b ∧ b ≤ 0) :
    video_bitrate_check config = .error .invalidInput := by
  unfold video_bitrate_check
  rw [hmode, hcont]
  simp only [decide_True, Bool.not_false, Bool.and_self, if_true]
  rcases hbad with h | ⟨b, hb, hb0⟩
  · simp [h]
  · simp [hb, hb0]

/-- Claim C5 counterexample: with an audio-only container, a video bitrate
that does not parse as a positive number is accepted and the job is enqueued. -/
theorem c5_counterexample :
    parseF64 badBitrateMp3Config.videoBitrate = none
    ∧ badBitrateMp3Config.videoBitrateMode = "bitrate"
    ∧ is_audio_only_container badBitrateMp3Config.container = true
    ∧ queue_conversion allFilesFs "job1" "/tmp/in.mov" none badBitrateMp3Config =
        .ok ⟨"job1", "/tmp/in.mov", none, badBitrateMp3Config⟩ := by
  refine ⟨by decide, by decide, by decide, by decide⟩

/-- Claim C5 amended: for explicit-bitrate mode with a video bitrate that
does not parse as a strictly positive number, queueing fails synchronously
with an invalid-input error and no task is enqueued — provided the target
container is not audio-only; audio-only containers are exempted from the
video-bitrate check (see the counterexample). -/
theorem c5_amended (fs : String → FileInfo) (id filePath : String)
    (outputName : Option String) (config : ConversionConfig)
    (hmode : config.videoBitrateMode = "bitrate")
    (hcont : is_audio_only_container config.container = false)
    (hbad : parseF64 config.videoBitrate = none
            ∨ ∃ b, parseF64 config.videoBitrate = some b ∧ b ≤ 0) :
    queue_conversion fs id filePath outputName config = .error .invalidInput := by
  unfold queue_conversion validate_task_input
  by_cases h1 : (fs filePath).pathExists
  case neg => simp [h1]
  by_cases h2 : (fs filePath).pathIsFile
  case neg => simp [h1, h2]
  simp only [h1, h2, Bool.not_true, Bool.false_eq_true, if_false]
  cases hcc : custom_resolution_check config with
  | error e =>
    have := custom_check_err hcc
    subst this
    simp
  | ok u =>
    cases u
    simp [video_check_bad hmode hcont hbad]

theorem c5_witness :
    is_audio_only_container sampleConfig.container = false
    ∧ queue_conversion allFilesFs "job2" "/tmp/in.mov" none
        { sampleConfig with videoBitrateMode := "bitrate", videoBitrate := "abc" } =
        .error .invalidInput := by
  refine ⟨by decide, ?_⟩
  exact c5_amended allFilesFs "job2" "/tmp/in.mov" none _ rfl (by decide) (Or.inl (by decide))

/-- Claim C1 amended: with "copy" audio and metadata present, the estimate is
the sum of the known probed bitrates when positive; the flat 128 kbps
per-track fallback applies only when that sum is not positive. -/
theorem c1_amended (config : ConversionConfig) (meta : ProbeMetadata)
    (audioOnly : Bool)
    (hcopy : eqIgnoreAsciiCase config.audioCodec "copy" = true)
    (hne : resolve_audio_track_ids config (some meta) audioOnly ≠ []) :
    estimate_audio_bitrate_kbps config (some meta) audioOnly =
      .ok (if 0 < probed_track_sum meta (resolve_audio_track_ids config (some meta) audioOnly)
           then probed_track_sum meta (resolve_audio_track_ids config (some meta) audioOnly)
           else FALLBACK_AUDIO_BITRATE_KBPS *
             (resolve_audio_track_ids config (some meta) audioOnly).length) := by
  unfold estimate_audio_bitrate_kbps
  simp only [hne, if_false, hcopy, if_true]
  split <;> simp_all

theorem c1_amended_witness :
    eqIgnoreAsciiCase copyMixConfig.audioCodec "copy" = true
    ∧ resolve_audio_track_ids copyMixConfig (some copyMixMeta) false ≠ []
    ∧ estimate_audio_bitrate_kbps copyMixConfig (some copyMixMeta) false =
        .ok (if 0 < probed_track_sum copyMixMeta
                (resolve_audio_track_ids copyMixConfig (some copyMixMeta) false)
             then probed_track_sum copyMixMeta
                (resolve_audio_track_ids copyMixConfig (some copyMixMeta) false)
             else FALLBACK_AUDIO_BITRATE_KBPS *
                (resolve_audio_track_ids copyMixConfig (some copyMixMeta) false).length) :=
  ⟨by decide, by decide, c1_amended copyMixConfig copyMixMeta false (by decide) (by decide)⟩

/-- Claim C10: with audio codec "copy" and absent metadata, a non-audio-only
container with an empty selection yields an audio estimate of 0; an
audio-only container resolves exactly one track and parses the configured
per-track bitrate instead of using the 128 kbps probe fallback, rejecting
empty, non-numeric and non-positive values with an invalid-input error. -/
theorem c10_copy_without_metadata (cfg1 cfg2 : ConversionConfig)
    (h1 : eqIgnoreAsciiCase cfg1.audioCodec "copy" = true)
    (h2 : is_audio_only_container cfg1.container = false)
    (h3 : cfg1.selectedAudioTracks = [])
    (h4 : eqIgnoreAsciiCase cfg2.audioCodec "copy" = true)
    (h5 : is_audio_only_container cfg2.container = true)
    (h6 : cfg2.selectedAudioTracks = []) :
    estimate_audio_bitrate_kbps cfg1 none (is_audio_only_container cfg1.container) = .ok 0
    ∧ resolve_audio_track_ids cfg2 none (is_audio_only_container cfg2.container) = [0]
    ∧ estimate_audio_bitrate_kbps cfg2 none (is_audio_only_container cfg2.container) =
        parse_config_bitrate cfg2.audioBitrate
    ∧ (trimStr cfg2.audioBitrate = "" →
        parse_config_bitrate cfg2.audioBitrate = .error .invalidInput)
    ∧ (trimStr cfg2.audioBitrate ≠ "" →
        parseF64 (replaceChar ',' '.' (trimStr cfg2.audioBitrate)) = none →
        parse_config_bitrate cfg2.audioBitrate = .error .invalidInput)
    ∧ (∀ b, trimStr cfg2.audioBitrate ≠ "" →
        parseF64 (replaceChar ',' '.' (trimStr cfg2.audioBitrate)) = some b →
        b ≤ 0 → parse_config_bitrate cfg2.audioBitrate = .error .invalidInput)
    ∧ (∀ b, trimStr cfg2.audioBitrate ≠ "" →
        parseF64 (replaceChar ',' '.' (trimStr cfg2.audioBitrate)) = some b →
        0 < b → parse_config_bitrate cfg2.audioBitrate = .ok b) := by
  have hresolve : resolve_audio_track_ids cfg2 none (is_audio_only_container cfg2.container) = [0] := by
    rw [h5]
    unfold resolve_audio_track_ids
    simp [h6]
  have hlower : lowerStr cfg2.audioCodec = "copy" := by
    have : lowerStr "copy" = "copy" := by decide
    simpa [eqIgnoreAsciiCase, this] using h4
  refine ⟨?_, hresolve, ?_, ?_, ?_, ?_, ?_⟩
  · rw [h2]
    unfold estimate_audio_bitrate_kbps resolve_audio_track_ids
    simp [h3]
  · unfold estimate_audio_bitrate_kbps
    rw [hresolve]
    simp only [h4, if_true, hlower, List.cons_ne_self, if_false]
    have hpcm : strLeads "copy" "pcm_" = false := by decide
    rw [hpcm]
    simp only [Bool.false_eq_true, if_false]
    cases hp : parse_config_bitrate cfg2.audioBitrate with
    | error e => simp
    | ok v => simp
  · intro h
    unfold parse_config_bitrate
    simp [h]
  · intro h hn
    unfold parse_config_bitrate
    simp [h, hn]
  · intro b h hs hb0
    unfold parse_config_bitrate
    simp [h, hs, hb0]
  · intro b h hs hb0
    unfold parse_config_bitrate
    simp [h, hs, hb0, not_le.mpr hb0]

theorem c10_witness :
    eqIgnoreAsciiCase copyNoMetaVideoConfig.audioCodec "copy" = true
    ∧ is_audio_only_container copyNoMetaVideoConfig.container = false
    ∧ copyNoMetaVideoConfig.selectedAudioTracks = []
    ∧ eqIgnoreAsciiCase copyNoMetaMp3Config.audioCodec "copy" = true
    ∧ is_audio_only_container copyNoMetaMp3Config.container = true
    ∧ copyNoMetaMp3Config.selectedAudioTracks = []
    ∧ estimate_audio_bitrate_kbps copyNoMetaVideoConfig none
        (is_audio_only_container copyNoMetaVideoConfig.container) = .ok 0
    ∧ estimate_audio_bitrate_kbps copyNoMetaMp3Config none
        (is_audio_only_container copyNoMetaMp3Config.container) =
        parse_config_bitrate copyNoMetaMp3Config.audioBitrate := by
  have h := c10_copy_without_metadata copyNoMetaVideoConfig copyNoMetaMp3Config
    (by decide) (by decide) (by decide) (by decide) (by decide) (by decide)
  exact ⟨by decide, by decide, by decide, by decide, by decide, by decide, h.1, h.2.2.1⟩

lemma estimate_output_ok_shape (config : ConversionConfig)
    (metadata : Option ProbeMetadata) (td : VideoDimensions) (tf : ℚ)
    (v : ℝ) (a : ℚ)
    (hd : determine_target_dimensions config metadata = .ok td)
    (hf : determine_target_fps config metadata = .ok tf)
    (hv : video_kbps_result config metadata td tf = .ok v)
    (ha : estimate_audio_bitrate_kbps config metadata
            (is_audio_only_container config.container) = .ok a) :
    estimate_output config metadata =
      .ok ⟨rustRound v, rustRound ((a : ℚ) : ℝ),
           rustRound ((v + ((a : ℚ) : ℝ)) *
             ((container_overhead_factor config.container : ℚ) : ℝ)),
           Option.map (fun seconds : ℚ => (v + ((a : ℚ) : ℝ)) *
               ((container_overhead_factor config.container : ℚ) : ℝ) *
               ((seconds : ℚ) : ℝ) / 8 / 1000)
             (parse_duration_to_seconds (metadata.bind fun m => m.duration))⟩ := by
  unfold estimate_output
  rw [hd, hf]
  dsimp only
  rw [hv]
  dsimp only
  rw [ha]

lemma estimate_output_audio_error (config : ConversionConfig)
    (metadata : Option ProbeMetadata) (td : VideoDimensions) (tf : ℚ)
    (v : ℝ) (e : ConversionError)
    (hd : determine_target_dimensions config metadata = .ok td)
    (hf : determine_target_fps config metadata = .ok tf)
    (hv : video_kbps_result config metadata td tf = .ok v)
    (ha : estimate_audio_bitrate_kbps config metadata
            (is_audio_only_container config.container) = .error e) :
    estimate_output config metadata = .error e := by
  unfold estimate_output
  rw [hd, hf]
  dsimp only
  rw [hv]
  dsimp only
  rw [ha]

lemma rustRound_rat (q : ℚ) : rustRound ((q : ℚ) : ℝ) = roundQ q := by
  unfold rustRound roundQ
  rw [show ((q : ℚ) : ℝ) + 1 / 2 = ((q + 1 / 2 : ℚ) : ℝ) by push_cast; ring]
  exact Rat.floor_cast (q + 1 / 2)

lemma rustRound_mono {x y : ℝ} (h : x ≤ y) : rustRound x ≤ rustRound y := by
  unfold rustRound
  exact Int.floor_le_floor (by linarith)


lemma processQueueLoop_card_le (limit : ℕ) :
    ∀ (queue : List ConversionTask) (running : Finset String),
      (processQueueLoop limit queue running).2.card ≤ max limit running.card := by
  intro queue
  induction queue with
  | nil => intro running; simpa [processQueueLoop] using le_max_right _ _
  | cons t rest ih =>
    intro running
    unfold processQueueLoop
    by_cases h : running.card < limit
    · simp only [h, if_true]
      refine (ih (insert t.id running)).trans ?_
      have hcard : (insert t.id running).card ≤ limit := by
        refine (Finset.card_insert_le _ _).trans ?_
        omega
      simp [max_le_iff, le_max_iff, hcard]
    · simpa [h] using le_max_right _ _

lemma processQueueLoop_mem (limit : ℕ) :
    ∀ (queue : List ConversionTask) (running : Finset String) (id : String),
      id ∈ (processQueueLoop limit queue running).2 →
      id ∈ running ∨ id ∈ queue.map (fun t => t.id) := by
  intro queue
  induction queue with
  | nil =>
    intro running id h
    simp only [processQueueLoop] at h
    exact Or.inl h
  | cons t rest ih =>
    intro running id h
    unfold processQueueLoop at h
    by_cases hc : running.card < limit
    · simp only [hc, if_true] at h
      rcases ih _ _ h with hin | hin
      · rcases Finset.mem_insert.mp hin with rfl | hin
        · exact Or.inr (by simp)
        · exact Or.inl hin
      · exact Or.inr (by simp [hin])
    · simp only [hc, if_false] at h
      exact Or.inl h

lemma step_not_setMax_preserves (s : MState) (msg : CoordMsg)
    (hmsg : ∀ v, msg ≠ .setMax v)
    (hinv : s.running.card ≤ max s.maxConc 1) :
    (step s msg).running.card ≤ max (step s msg).maxConc 1
    ∧ (step s msg).maxConc = s.maxConc := by
  cases msg with
  | enqueue task =>
    refine ⟨?_, rfl⟩
    simp only [step, process_queue]
    refine (processQueueLoop_card_le _ _ _).trans ?_
    exact max_le le_rfl hinv
  | started id pid => exact ⟨hinv, rfl⟩
  | completed id =>
    refine ⟨?_, rfl⟩
    simp only [step, process_queue]
    refine (processQueueLoop_card_le _ _ _).trans ?_
    have herase : (s.running.erase id).card ≤ s.running.card := Finset.card_erase_le
    exact max_le le_rfl (herase.trans hinv)
  | errored id =>
    refine ⟨?_, rfl⟩
    simp only [step, process_queue]
    refine (processQueueLoop_card_le _ _ _).trans ?_
    have herase : (s.running.erase id).card ≤ s.running.card := Finset.card_erase_le
    exact max_le le_rfl (herase.trans hinv)
  | setMax v => exact absurd rfl (hmsg v)

lemma foldl_no_setMax_inv (msgs : List CoordMsg) :
    ∀ s : MState, (∀ v, CoordMsg.setMax v ∉ msgs) →
      s.running.card ≤ max s.maxConc 1 →
      (List.foldl step s msgs).running.card ≤ max (List.foldl step s msgs).maxConc 1
      ∧ (List.foldl step s msgs).maxConc = s.maxConc := by
  induction msgs with
  | nil => intro s _ hinv; exact ⟨hinv, rfl⟩
  | cons m rest ih =>
    intro s hno hinv
    have hm : ∀ v, m ≠ .setMax v := by
      intro v hv
      exact hno v (by simp [hv])
    have hrest : ∀ v, CoordMsg.setMax v ∉ rest := by
      intro v hv
      exact hno v (by simp [hv])
    have h1 := step_not_setMax_preserves s m hm hinv
    have h2 := ih (step s m) hrest h1.1
    exact ⟨h2.1, h2.2.trans h1.2⟩

/-- Claim C3 amended: a scheduling pass of the coordinator launches only queued jobs and only
while the running count is below the clamped limit; changing the limit never
touches the running set; and along any trace that never changes the limit,
the running count stays at or below the (default) limit. Lowering the limit
below the current running count, however, yields reachable states where the
running count exceeds the current limit (see the counterexample). -/
theorem c3_amended :
    (∀ (s : MState) (v : ℕ),
      (step s (.setMax v)).running = s.running
      ∧ (step s (.setMax v)).queue = s.queue
      ∧ (step s (.setMax v)).active = s.active)
    ∧ (∀ (stored : ℕ) (queue : List ConversionTask) (running : Finset String),
      (process_queue stored queue running).2.card ≤ max (max stored 1) running.card
      ∧ ∀ id ∈ (process_queue stored queue running).2,
          id ∈ running ∨ id ∈ queue.map (fun t => t.id))
    ∧ (∀ msgs : List CoordMsg, (∀ v, CoordMsg.setMax v ∉ msgs) →
      (List.foldl step initState msgs).running.card ≤ DEFAULT_MAX_CONCURRENCY) := by
  refine ⟨?_, ?_, ?_⟩
  · intro s v
    by_cases hv : v = 0 <;> simp [step, hv]
  · intro stored queue running
    exact ⟨processQueueLoop_card_le _ _ _, fun id h => processQueueLoop_mem _ _ _ id h⟩
  · intro msgs hno
    have := foldl_no_setMax_inv msgs initState hno (by simp [initState])
    have h2 := this.2
    rw [show initState.maxConc = DEFAULT_MAX_CONCURRENCY from rfl] at h2
    have := this.1
    rw [h2] at this
    simpa [DEFAULT_MAX_CONCURRENCY] using this

theorem c3_witness :
    ((step (List.foldl step initState [.enqueue taskOne]) (.setMax 5)).running =
      (List.foldl step initState [.enqueue taskOne]).running)
    ∧ (∀ v, CoordMsg.setMax v ∉ ([.enqueue taskOne, .enqueue taskTwo] : List CoordMsg))
    ∧ (List.foldl step initState [.enqueue taskOne, .enqueue taskTwo]).running.card ≤
        DEFAULT_MAX_CONCURRENCY := by
  refine ⟨(c3_amended.1 _ 5).1, ?_, ?_⟩
  · intro v
    simp
  · exact c3_amended.2.2 [.enqueue taskOne, .enqueue taskTwo] (by intro v; simp)

/-- Claim C3 counterexample: enqueue two jobs under the default limit 2, then
lower the limit to 1; the resulting reachable state has 2 running jobs, more
than the current limit. -/
theorem c3_counterexample :
    Reachable (List.foldl step initState [.enqueue taskOne, .enqueue taskTwo, .setMax 1])
    ∧ (List.foldl step initState [.enqueue taskOne, .enqueue taskTwo, .setMax 1]).maxConc = 1
    ∧ (List.foldl step initState [.enqueue taskOne, .enqueue taskTwo, .setMax 1]).running.card = 2
    ∧ ¬ (List.foldl step initState [.enqueue taskOne, .enqueue taskTwo, .setMax 1]).running.card ≤
        max (List.foldl step initState [.enqueue taskOne, .enqueue taskTwo, .setMax 1]).maxConc 1 := by
  refine ⟨⟨[.enqueue taskOne, .enqueue taskTwo, .setMax 1], rfl⟩, by decide, by decide, by decide⟩


lemma rpow_two_lt {x y : ℝ} (h : x < y) : (2 : ℝ) ^ x < (2 : ℝ) ^ y :=
  (Real.rpow_lt_rpow_left_iff (by norm_num)).mpr h

lemma rpow_crf_cancel (a q : ℝ) (hq : 0 < q) :
    (2 : ℝ) ^ ((a - 6 * Real.logb 2 q - a) / 6) = q⁻¹ := by
  have h1 : (a - 6 * Real.logb 2 q - a) / 6 = -(Real.logb 2 q) := by ring
  rw [h1, Real.rpow_neg (by norm_num : (0 : ℝ) ≤ 2),
    Real.rpow_logb (by norm_num) (by norm_num) hq]

lemma codec_reference_bpp_pos (codec : String) :
    0 < (codec_reference codec).referenceBitsPerPixel := by
  unfold codec_reference
  split <;> norm_num [DEFAULT_H265_BITS_PER_PIXEL, DEFAULT_VP9_BITS_PER_PIXEL,
    DEFAULT_AV1_BITS_PER_PIXEL, DEFAULT_PRORES_BITS_PER_PIXEL, DEFAULT_H264_BITS_PER_PIXEL]

/-- Claim C8 (Example B): with no metadata, resolution 720p, fps 30 and
crf 23 on libx264, the video estimate comes from the flat reference
bits-per-pixel curve at the target pixel rate 1280*720*30, giving 2073.6
kbps before rounding and a reported 2074 kbps. -/
theorem c8_example_b :
    estimate_quality_video_bitrate exampleBConfig none ⟨1280, 720⟩ 30 =
      reference_bitrate_from_quality exampleBConfig.videoCodec
        (effective_crf exampleBConfig) (VideoDimensions.pixelRate ⟨1280, 720⟩ 30)
    ∧ reference_bitrate_from_quality exampleBConfig.videoCodec
        (effective_crf exampleBConfig) (VideoDimensions.pixelRate ⟨1280, 720⟩ 30) = 2073.6
    ∧ ∃ est, estimate_output exampleBConfig none = .ok est ∧ est.videoKbps = 2074 := by
  have h1 : codec_reference exampleBConfig.videoCodec = ⟨23, 3 / 40⟩ := by
    with_unfolding_all decide
  have h2 : effective_crf exampleBConfig = 23 := by decide
  have hpr : VideoDimensions.pixelRate ⟨1280, 720⟩ 30 = 27648000 := by
    norm_num [VideoDimensions.pixelRate]
  have hcurve : estimate_quality_video_bitrate exampleBConfig none ⟨1280, 720⟩ 30 =
      reference_bitrate_from_quality exampleBConfig.videoCodec
        (effective_crf exampleBConfig) (VideoDimensions.pixelRate ⟨1280, 720⟩ 30) := rfl
  have hval : reference_bitrate_from_quality exampleBConfig.videoCodec
      (effective_crf exampleBConfig) (VideoDimensions.pixelRate ⟨1280, 720⟩ 30) = 2073.6 := by
    simp only [reference_bitrate_from_quality, h1, h2, hpr]
    rw [show (((⟨23, 3 / 40⟩ : CodecReference).referenceCrf - 23 : ℚ) : ℝ) / 6 = 0 by
      push_cast
      norm_num]
    rw [Real.rpow_zero]
    push_cast
    norm_num
  refine ⟨hcurve, hval, ?_⟩
  have hd : determine_target_dimensions exampleBConfig none = .ok ⟨1280, 720⟩ := by decide
  have hf : determine_target_fps exampleBConfig none = .ok 30 := by
    with_unfolding_all decide
  have ha : estimate_audio_bitrate_kbps exampleBConfig none
      (is_audio_only_container exampleBConfig.container) = .ok 0 := by
    with_unfolding_all decide
  have hv : video_kbps_result exampleBConfig none ⟨1280, 720⟩ 30 = .ok 2073.6 := by
    unfold video_kbps_result
    rw [show is_audio_only_container exampleBConfig.container = false from by decide]
    simp only [Bool.false_eq_true, if_false]
    rw [if_neg (show ¬(exampleBConfig.videoBitrateMode = "bitrate") from by decide)]
    rw [hcurve, hval]
  have := estimate_output_ok_shape exampleBConfig none ⟨1280, 720⟩ 30 2073.6 0 hd hf hv ha
  refine ⟨_, this, ?_⟩
  show rustRound 2073.6 = 2074
  unfold rustRound
  rw [show (2073.6 : ℝ) + 1 / 2 = 2074.1 by norm_num]
  rw [Int.floor_eq_iff]
  constructor <;> norm_num


lemma srcA : source_video_bitrate_kbps (some exampleAMeta) = some 4000 := by
  unfold source_video_bitrate_kbps
  norm_num [exampleAMeta]

lemma mdA : metadata_dimensions (some exampleAMeta) = some ⟨1920, 1080⟩ := by decide

lemma frA : ((some exampleAMeta).bind fun meta => meta.frameRate) = some 30 := by
  norm_num [exampleAMeta]

lemma crefA : codec_reference exampleAConfig.videoCodec =
    ⟨23, DEFAULT_H264_BITS_PER_PIXEL⟩ := by
  rfl

lemma ecrfA : effective_crf exampleAConfig = 23 := by
  unfold effective_crf
  rw [show strContains exampleAConfig.videoCodec "videotoolbox" = false from by decide]
  rw [show strContains exampleAConfig.videoCodec "nvenc" = false from by decide]
  rw [show exampleAConfig.crf = 23 from rfl]
  norm_num


lemma sprA : source_pixel_rate (some exampleAMeta) ⟨1920, 1080⟩ 30 = 62208000 := by
  unfold source_pixel_rate source_fps_resolved
  rw [mdA, frA]
  simp only [Option.getD_some]
  rw [if_pos (show (0 : ℚ) < 30 from by norm_num)]
  rw [show VideoDimensions.pixelRate ⟨1920, 1080⟩ (30 : ℚ) = 62208000 from by
    norm_num [VideoDimensions.pixelRate]]
  exact max_eq_left (by norm_num)

set_option maxRecDepth 2000 in
lemma exampleA_quality_value :
    estimate_quality_video_bitrate exampleAConfig (some exampleAMeta) ⟨1920, 1080⟩ 30 =
      4665.6 := by
  unfold estimate_quality_video_bitrate
  rw [srcA]
  dsimp only
  rw [crefA, ecrfA, sprA]
  norm_num [VideoDimensions.pixelRate, sup_eq_max, DEFAULT_H264_BITS_PER_PIXEL]
  rw [show (-(6 * Real.logb 2 ((625 : ℝ) / 729)) / 6) = -(Real.logb 2 ((625 : ℝ) / 729)) from by
    ring]
  rw [Real.rpow_neg (by norm_num : (0 : ℝ) ≤ 2),
    Real.rpow_logb (by norm_num) (by norm_num) (by norm_num : (0 : ℝ) < 625 / 729)]
  rw [sup_eq_max, max_eq_left (by norm_num : (0 : ℝ) ≤ 4000 * ((625 : ℝ) / 729)⁻¹)]
  norm_num


lemma floor_helper_4666 : rustRound (4665.6 : ℝ) = 4666 := by
  unfold rustRound
  rw [show (4665.6 : ℝ) + 1 / 2 = 4666.1 from by norm_num]
  rw [Int.floor_eq_iff]
  constructor <;> norm_num

lemma audioA : estimate_audio_bitrate_kbps exampleAConfig (some exampleAMeta)
    (is_audio_only_container exampleAConfig.container) = .ok 128 := by
  with_unfolding_all decide

/-- Claim C2 (Example A): mp4/libx264/CRF-23 config with 1920x1080, 30 fps,
4000 kbps, 60 s metadata and one 128 kbps audio track estimates to video
4666 kbps, audio 128 kbps, total 4832 kbps and a size of about 36.2 MB. -/
theorem c2_example_a :
    ∃ est, estimate_output exampleAConfig (some exampleAMeta) = .ok est
    ∧ est.videoKbps = 4666 ∧ est.audioKbps = 128 ∧ est.totalKbps = 4832
    ∧ ∃ sz, est.sizeMb = some sz ∧ |sz - 36.2| < 1 / 5 := by
  have hd : determine_target_dimensions exampleAConfig (some exampleAMeta) =
      .ok ⟨1920, 1080⟩ := by decide
  have hf : determine_target_fps exampleAConfig (some exampleAMeta) = .ok 30 := by
    with_unfolding_all decide
  have hv : video_kbps_result exampleAConfig (some exampleAMeta) ⟨1920, 1080⟩ 30 =
      .ok 4665.6 := by
    unfold video_kbps_result
    rw [show is_audio_only_container exampleAConfig.container = false from by decide]
    simp only [Bool.false_eq_true, if_false]
    rw [if_neg (show ¬(exampleAConfig.videoBitrateMode = "bitrate") from by decide)]
    rw [exampleA_quality_value]
  have hshape := estimate_output_ok_shape exampleAConfig (some exampleAMeta)
    ⟨1920, 1080⟩ 30 4665.6 128 hd hf hv audioA
  have hdur : parse_duration_to_seconds ((some exampleAMeta).bind fun m => m.duration) =
      some 60 := by
    with_unfolding_all decide
  rw [hdur] at hshape
  have hover : container_overhead_factor exampleAConfig.container = 1.008 := rfl
  rw [hover] at hshape
  refine ⟨_, hshape, ?_, ?_, ?_, ?_⟩
  · exact floor_helper_4666
  · show rustRound ((128 : ℚ) : ℝ) = 128
    rw [rustRound_rat]
    unfold roundQ
    norm_num
  · show rustRound ((4665.6 + ((128 : ℚ) : ℝ)) * ((1.008 : ℚ) : ℝ)) = 4832
    rw [show (4665.6 + ((128 : ℚ) : ℝ)) * ((1.008 : ℚ) : ℝ) = 4831.9488 from by
      push_cast
      norm_num]
    unfold rustRound
    rw [show (4831.9488 : ℝ) + 1 / 2 = 4832.4488 from by norm_num]
    rw [Int.floor_eq_iff]
    constructor <;> norm_num
  · refine ⟨_, rfl, ?_⟩
    show |(4665.6 + ((128 : ℚ) : ℝ)) * ((1.008 : ℚ) : ℝ) * ((60 : ℚ) : ℝ) / 8 / 1000 - 36.2| <
      1 / 5
    rw [show (4665.6 + ((128 : ℚ) : ℝ)) * ((1.008 : ℚ) : ℝ) * ((60 : ℚ) : ℝ) / 8 / 1000 =
        36.239616 from by
      push_cast
      norm_num]
    rw [abs_sub_lt_iff]
    constructor <;> norm_num


set_option maxRecDepth 10000 in
/-- Claim C1 counterexample: audio codec "copy", one selected track probed at
200 kbps and one with unknown bitrate; the estimate reports 200 kbps, not the
claimed 200 + 128 = 328 kbps. -/
theorem c1_counterexample :
    (copyMixMeta.audioTracks.map fun t => t.bitrateKbps) = [some 200, none]
    ∧ copyMixConfig.selectedAudioTracks = [0, 1]
    ∧ eqIgnoreAsciiCase copyMixConfig.audioCodec "copy" = true
    ∧ ∃ est, estimate_output copyMixConfig (some copyMixMeta) = .ok est
      ∧ est.audioKbps = 200 ∧ est.audioKbps ≠ 328 := by
  refine ⟨by with_unfolding_all decide, by decide, by decide, ?_⟩
  have hd : determine_target_dimensions copyMixConfig (some copyMixMeta) =
      .ok ⟨1280, 720⟩ := by decide
  have hf : determine_target_fps copyMixConfig (some copyMixMeta) = .ok 30 := by
    with_unfolding_all decide
  have hv : video_kbps_result copyMixConfig (some copyMixMeta) ⟨1280, 720⟩ 30 =
      .ok ((1000 : ℚ) : ℝ) := by
    unfold video_kbps_result
    rw [show is_audio_only_container copyMixConfig.container = false from by decide]
    simp only [Bool.false_eq_true, if_false]
    rw [if_pos (show copyMixConfig.videoBitrateMode = "bitrate" from rfl)]
    rw [show parse_config_bitrate copyMixConfig.videoBitrate = .ok 1000 from by
      with_unfolding_all decide]
  have ha : estimate_audio_bitrate_kbps copyMixConfig (some copyMixMeta)
      (is_audio_only_container copyMixConfig.container) = .ok 200 := by
    with_unfolding_all decide
  have hshape := estimate_output_ok_shape copyMixConfig (some copyMixMeta)
    ⟨1280, 720⟩ 30 ((1000 : ℚ) : ℝ) 200 hd hf hv ha
  refine ⟨_, hshape, ?_, ?_⟩
  · show rustRound ((200 : ℚ) : ℝ) = 200
    rw [rustRound_rat]
    unfold roundQ
    norm_num
  · show rustRound ((200 : ℚ) : ℝ) ≠ 328
    rw [rustRound_rat]
    unfold roundQ
    norm_num

/-- Claim C4 counterexample: for an audio-only container the video estimate
is 0 for every CRF, so a strictly larger CRF does not yield a strictly
smaller rounded video bitrate. -/
theorem c4_counterexample :
    mp3HighCrfConfig = { mp3Config with crf := 24 }
    ∧ mp3Config.crf < mp3HighCrfConfig.crf
    ∧ ∃ e1 e2, estimate_output mp3Config none = .ok e1
      ∧ estimate_output mp3HighCrfConfig none = .ok e2
      ∧ ¬ e2.videoKbps < e1.videoKbps := by
  have hv0 : rustRound (0 : ℝ) = 0 := by
    unfold rustRound
    rw [Int.floor_eq_iff]
    constructor <;> norm_num
  have h1 : ∀ cfg : ConversionConfig, cfg.container = "mp3" → cfg.fps = "original" →
      cfg.resolution = "original" → cfg.audioCodec = "aac" → cfg.audioBitrate = "128" →
      cfg.selectedAudioTracks = [] →
      ∃ e, estimate_output cfg none = .ok e ∧ e.videoKbps = 0 := by
    intro cfg hcont hfps hres hac hab hsel
    have haudio : is_audio_only_container cfg.container = true := by
      rw [hcont]
      decide
    have hd : determine_target_dimensions cfg none = .ok ⟨1280, 720⟩ := by
      unfold determine_target_dimensions
      rw [hres]
      rfl
    have hf : determine_target_fps cfg none = .ok 30 := by
      unfold determine_target_fps
      rw [hfps]
      simp [DEFAULT_FRAME_RATE]
    have hv : video_kbps_result cfg none ⟨1280, 720⟩ 30 = .ok 0 := by
      unfold video_kbps_result
      rw [haudio]
      simp
    have ha : estimate_audio_bitrate_kbps cfg none (is_audio_only_container cfg.container) =
        .ok 128 := by
      rw [haudio]
      unfold estimate_audio_bitrate_kbps resolve_audio_track_ids
      rw [hsel, hac, hab]
      with_unfolding_all decide
    have hshape := estimate_output_ok_shape cfg none ⟨1280, 720⟩ 30 0 128 hd hf hv ha
    exact ⟨_, hshape, hv0⟩
  obtain ⟨e1, he1, hv1⟩ := h1 mp3Config rfl rfl rfl rfl rfl rfl
  obtain ⟨e2, he2, hv2⟩ := h1 mp3HighCrfConfig rfl rfl rfl rfl rfl rfl
  refine ⟨rfl, by decide, e1, e2, he1, he2, ?_⟩
  rw [hv1, hv2]
  norm_num


lemma crf_update_dims (cfg : ConversionConfig) (c : ℕ) (m : Option ProbeMetadata) :
    determine_target_dimensions { cfg with crf := c } m =
      determine_target_dimensions cfg m := by
  cases cfg
  rfl

lemma crf_update_fps (cfg : ConversionConfig) (c : ℕ) (m : Option ProbeMetadata) :
    determine_target_fps { cfg with crf := c } m = determine_target_fps cfg m := by
  cases cfg
  rfl

lemma effective_crf_software (cfg : ConversionConfig) (c : ℕ)
    (hhw1 : strContains cfg.videoCodec "videotoolbox" = false)
    (hhw2 : strContains cfg.videoCodec "nvenc" = false) :
    effective_crf { cfg with crf := c } = (c : ℚ) := by
  unfold effective_crf
  rw [show ({ cfg with crf := c } : ConversionConfig).videoCodec = cfg.videoCodec from rfl,
    hhw1, hhw2]
  rw [show ({ cfg with crf := c } : ConversionConfig).crf = c from rfl]
  simp

lemma ref_curve_lt (codec : String) (pr : ℚ) (hpr : 0 < pr) {a b : ℚ} (hab : a < b) :
    reference_bitrate_from_quality codec b pr < reference_bitrate_from_quality codec a pr := by
  unfold reference_bitrate_from_quality
  have hbpp : (0 : ℝ) < ((codec_reference codec).referenceBitsPerPixel : ℚ) := by
    exact_mod_cast codec_reference_bpp_pos codec
  have hprr : (0 : ℝ) < (pr : ℚ) := by exact_mod_cast hpr
  have hexp : (((codec_reference codec).referenceCrf - b : ℚ) : ℝ) / 6 <
      (((codec_reference codec).referenceCrf - a : ℚ) : ℝ) / 6 := by
    have : ((a : ℚ) : ℝ) < ((b : ℚ) : ℝ) := by exact_mod_cast hab
    push_cast
    push_cast at this
    linarith
  have hq := rpow_two_lt hexp
  have h2 : (0 : ℝ) < (2 : ℝ) ^ ((((codec_reference codec).referenceCrf - b : ℚ) : ℝ) / 6) :=
    Real.rpow_pos_of_pos (by norm_num) _
  calc ((codec_reference codec).referenceBitsPerPixel : ℝ) *
        (2 : ℝ) ^ ((((codec_reference codec).referenceCrf - b : ℚ) : ℝ) / 6) * (pr : ℝ) / 1000
      < ((codec_reference codec).referenceBitsPerPixel : ℝ) *
        (2 : ℝ) ^ ((((codec_reference codec).referenceCrf - a : ℚ) : ℝ) / 6) * (pr : ℝ) / 1000 := by
        gcongr
  -- no further steps

lemma quality_lt_of_ecrf_lt (cfgA cfgB : ConversionConfig) (m : Option ProbeMetadata)
    (td : VideoDimensions) (tf : ℚ)
    (hcodec : cfgB.videoCodec = cfgA.videoCodec)
    (hecrf : effective_crf cfgA < effective_crf cfgB)
    (hpr : 0 < VideoDimensions.pixelRate td tf)
    (hsb : ∀ sb, source_video_bitrate_kbps m = some sb → 0 < sb) :
    estimate_quality_video_bitrate cfgB m td tf <
      estimate_quality_video_bitrate cfgA m td tf := by
  unfold estimate_quality_video_bitrate
  cases hsrc : source_video_bitrate_kbps m with
  | none =>
    dsimp only
    rw [hcodec]
    exact ref_curve_lt cfgA.videoCodec _ hpr hecrf
  | some sb =>
    dsimp only
    rw [hcodec]
    have hsb0 : 0 < sb := hsb sb hsrc
    have hspr : (0 : ℚ) < source_pixel_rate m td tf :=
      lt_of_lt_of_le one_pos (le_max_right _ _)
    have hsbpp : (0 : ℚ) < sb * 1000 / source_pixel_rate m td tf :=
      div_pos (by positivity) hspr
    have hrefbpp := codec_reference_bpp_pos cfgA.videoCodec
    rw [if_pos (by simp only [Bool.and_eq_true, decide_eq_true_eq]; exact ⟨hsbpp, hrefbpp⟩)]
    rw [if_pos (div_pos hsbpp hrefbpp)]
    rw [if_pos (by simp only [Bool.and_eq_true, decide_eq_true_eq]; exact ⟨hsbpp, hrefbpp⟩)]
    rw [if_pos (div_pos hsbpp hrefbpp)]
    have hpq : (0 : ℚ) < td.pixelRate tf / source_pixel_rate m td tf := div_pos hpr hspr
    have hK : (0 : ℝ) < (sb : ℝ) * ((td.pixelRate tf / source_pixel_rate m td tf : ℚ) : ℝ) := by
      exact_mod_cast mul_pos hsb0 hpq
    have hqfB : (0 : ℝ) < (2 : ℝ) ^
        ((((codec_reference cfgA.videoCodec).referenceCrf : ℝ) -
          6 * Real.logb 2 ((sb * 1000 / source_pixel_rate m td tf /
            (codec_reference cfgA.videoCodec).referenceBitsPerPixel : ℚ) : ℝ) -
          ((effective_crf cfgB : ℚ) : ℝ)) / 6) :=
      Real.rpow_pos_of_pos (by norm_num) _
    have hqfA : (0 : ℝ) < (2 : ℝ) ^
        ((((codec_reference cfgA.videoCodec).referenceCrf : ℝ) -
          6 * Real.logb 2 ((sb * 1000 / source_pixel_rate m td tf /
            (codec_reference cfgA.videoCodec).referenceBitsPerPixel : ℚ) : ℝ) -
          ((effective_crf cfgA : ℚ) : ℝ)) / 6) :=
      Real.rpow_pos_of_pos (by norm_num) _
    rw [sup_eq_max, sup_eq_max, max_eq_left (le_of_lt (mul_pos hK hqfB)),
      max_eq_left (le_of_lt (mul_pos hK hqfA))]
    refine mul_lt_mul_of_pos_left ?_ hK
    refine rpow_two_lt ?_
    have hcast : ((effective_crf cfgA : ℚ) : ℝ) < ((effective_crf cfgB : ℚ) : ℝ) := by
      exact_mod_cast hecrf
    linarith


/-- Claim C4 amended: the estimate is deterministic; for quality-mode,
software-codec, non-audio-only configurations with positive target pixel rate
(and positive source bitrate when one is known), the real-valued predicted
video bitrate strictly decreases as CRF grows, and the rounded `videoKbps`
field is antitone (it can stay equal for nearby CRF values because of
rounding, and is constant in CRF for audio-only containers, explicit-bitrate
mode and hardware encoders). -/
theorem c4_crf_monotonicity (cfg : ConversionConfig) (m : Option ProbeMetadata)
    (td : VideoDimensions) (tf : ℚ) (cLow cHigh : ℕ)
    (hc : cLow < cHigh)
    (haudio : is_audio_only_container cfg.container = false)
    (hmode : cfg.videoBitrateMode ≠ "bitrate")
    (hhw1 : strContains cfg.videoCodec "videotoolbox" = false)
    (hhw2 : strContains cfg.videoCodec "nvenc" = false)
    (hd : determine_target_dimensions cfg m = .ok td)
    (hf : determine_target_fps cfg m = .ok tf)
    (hpr : 0 < VideoDimensions.pixelRate td tf)
    (hsb : ∀ sb, source_video_bitrate_kbps m = some sb → 0 < sb) :
    (∀ (c : ConversionConfig) (mm : Option ProbeMetadata),
        estimate_output c mm = estimate_output c mm)
    ∧ estimate_quality_video_bitrate { cfg with crf := cHigh } m td tf <
        estimate_quality_video_bitrate { cfg with crf := cLow } m td tf
    ∧ (∀ e1 e2, estimate_output { cfg with crf := cLow } m = .ok e1 →
        estimate_output { cfg with crf := cHigh } m = .ok e2 →
        e2.videoKbps ≤ e1.videoKbps) := by
  have hecrf : effective_crf { cfg with crf := cLow } < effective_crf { cfg with crf := cHigh } := by
    rw [effective_crf_software cfg cLow hhw1 hhw2, effective_crf_software cfg cHigh hhw1 hhw2]
    exact_mod_cast hc
  have hstrict := quality_lt_of_ecrf_lt { cfg with crf := cLow } { cfg with crf := cHigh }
    m td tf rfl hecrf hpr hsb
  refine ⟨fun _ _ => rfl, hstrict, ?_⟩
  intro e1 e2 h1 h2
  have hd1 : determine_target_dimensions { cfg with crf := cLow } m = .ok td :=
    (crf_update_dims cfg cLow m).trans hd
  have hd2 : determine_target_dimensions { cfg with crf := cHigh } m = .ok td :=
    (crf_update_dims cfg cHigh m).trans hd
  have hf1 : determine_target_fps { cfg with crf := cLow } m = .ok tf :=
    (crf_update_fps cfg cLow m).trans hf
  have hf2 : determine_target_fps { cfg with crf := cHigh } m = .ok tf :=
    (crf_update_fps cfg cHigh m).trans hf
  have hv1 : video_kbps_result { cfg with crf := cLow } m td tf =
      .ok (estimate_quality_video_bitrate { cfg with crf := cLow } m td tf) := by
    unfold video_kbps_result
    rw [show ({ cfg with crf := cLow } : ConversionConfig).container = cfg.container from rfl,
      haudio]
    simp only [Bool.false_eq_true, if_false]
    rw [if_neg (show ¬(({ cfg with crf := cLow } : ConversionConfig).videoBitrateMode =
      "bitrate") from hmode)]
  have hv2 : video_kbps_result { cfg with crf := cHigh } m td tf =
      .ok (estimate_quality_video_bitrate { cfg with crf := cHigh } m td tf) := by
    unfold video_kbps_result
    rw [show ({ cfg with crf := cHigh } : ConversionConfig).container = cfg.container from rfl,
      haudio]
    simp only [Bool.false_eq_true, if_false]
    rw [if_neg (show ¬(({ cfg with crf := cHigh } : ConversionConfig).videoBitrateMode =
      "bitrate") from hmode)]
  cases haud1 : estimate_audio_bitrate_kbps { cfg with crf := cLow } m
      (is_audio_only_container ({ cfg with crf := cLow } : ConversionConfig).container) with
  | error e =>
    rw [estimate_output_audio_error _ _ _ _ _ _ hd1 hf1 hv1 haud1] at h1
    cases h1
  | ok a1 =>
    cases haud2 : estimate_audio_bitrate_kbps { cfg with crf := cHigh } m
        (is_audio_only_container ({ cfg with crf := cHigh } : ConversionConfig).container) with
    | error e =>
      rw [estimate_output_audio_error _ _ _ _ _ _ hd2 hf2 hv2 haud2] at h2
      cases h2
    | ok a2 =>
      rw [estimate_output_ok_shape _ _ _ _ _ _ hd1 hf1 hv1 haud1] at h1
      rw [estimate_output_ok_shape _ _ _ _ _ _ hd2 hf2 hv2 haud2] at h2
      have he1 := (Except.ok.injEq _ _).mp h1
      have he2 := (Except.ok.injEq _ _).mp h2
      rw [← he1, ← he2]
      exact rustRound_mono (le_of_lt hstrict)


theorem c4_witness :
    (23 : ℕ) < 24
    ∧ is_audio_only_container exampleBConfig.container = false
    ∧ exampleBConfig.videoBitrateMode ≠ "bitrate"
    ∧ strContains exampleBConfig.videoCodec "videotoolbox" = false
    ∧ strContains exampleBConfig.videoCodec "nvenc" = false
    ∧ determine_target_dimensions exampleBConfig none = .ok ⟨1280, 720⟩
    ∧ determine_target_fps exampleBConfig none = .ok 30
    ∧ 0 < VideoDimensions.pixelRate ⟨1280, 720⟩ 30
    ∧ estimate_quality_video_bitrate { exampleBConfig with crf := 24 } none ⟨1280, 720⟩ 30 <
        estimate_quality_video_bitrate { exampleBConfig with crf := 23 } none ⟨1280, 720⟩ 30 :=
  ⟨by decide, by decide, by decide, by decide, by decide, by decide,
   by with_unfolding_all decide, by norm_num [VideoDimensions.pixelRate],
   (c4_crf_monotonicity exampleBConfig none ⟨1280, 720⟩ 30 23 24 (by decide) (by decide)
     (by decide) (by decide) (by decide) (by decide) (by with_unfolding_all decide)
     (by norm_num [VideoDimensions.pixelRate])
     (fun sb h => Option.noConfusion h)).2.1⟩

lemma takeWhile_app (p : Char → Bool) (l1 l2 : List Char)
    (h : ∀ a ∈ l1, p a = true) :
    (l1 ++ l2).takeWhile p = l1 ++ l2.takeWhile p := by
  induction l1 with
  | nil => simp
  | cons c rest ih =>
    have hc : p c = true := h c (by simp)
    simp only [List.cons_append, List.takeWhile_cons, hc, if_true]
    rw [ih (fun a ha => h a (by simp [ha]))]

lemma toList_mk (l : List Char) : (⟨l⟩ : String).toList = l := rfl

lemma mk_toList (s : String) : (⟨s.toList⟩ : String) = s := rfl

lemma fileName_all_slash_free (t : String)
    (ht : t.toList.all (fun c => c ≠ '/') = true) : fileName t = t := by
  unfold fileName
  have hall : ∀ a ∈ t.toList.reverse, (fun c => decide (c ≠ '/')) a = true := by
    intro a ha
    exact (List.all_eq_true.mp ht) a (List.mem_reverse.mp ha)
  rw [List.takeWhile_eq_self_iff.mpr hall, List.reverse_reverse]
  exact mk_toList t

lemma fileName_pushPath (base t : String)
    (ht : t.toList.all (fun c => c ≠ '/') = true) (hne : t ≠ "") :
    fileName (pushPath base t) = t := by
  have hdata : t.toList ≠ [] := by
    intro hh
    refine hne ?_
    cases t with
    | mk l =>
      simp only [toList_mk] at hh
      rw [hh]
  have hlead : strLeads t "/" = false := by
    unfold strLeads
    cases hl : t.toList with
    | nil => exact absurd hl hdata
    | cons c rest =>
      have hc : c ≠ '/' := of_decide_eq_true ((List.all_eq_true.mp ht) c (by rw [hl]; simp))
      simp only [show ("/" : String).toList = ['/'] from rfl, listLeads]
      have hne2 : ('/' = c) = False := by
        simp only [eq_iff_iff, iff_false]
        intro hcc
        exact hc hcc.symm
      simp [hne2]
  unfold pushPath
  rw [hlead]
  simp only [Bool.false_eq_true, if_false]
  by_cases hbase : base = ""
  · rw [if_pos hbase]
    exact fileName_all_slash_free t ht
  rw [if_neg hbase]
  by_cases hlast : base.toList.getLast? = some '/'
  · rw [if_pos hlast]
    unfold fileName
    have happ : (base ++ t).toList = base.toList ++ t.toList := by
      cases base
      cases t
      rfl
    rw [happ, List.reverse_append]
    have hallrev : ∀ a ∈ t.toList.reverse, (fun c => decide (c ≠ '/')) a = true := by
      intro a ha
      exact (List.all_eq_true.mp ht) a (List.mem_reverse.mp ha)
    rw [takeWhile_app _ _ _ hallrev]
    have hrev : base.toList.reverse.takeWhile (fun c => decide (c ≠ '/')) = [] := by
      have hh : base.toList.reverse.head? = some '/' := by
        rw [List.head?_reverse]
        exact hlast
      cases hr : base.toList.reverse with
      | nil => rfl
      | cons c rest =>
        rw [hr] at hh
        simp only [List.head?_cons, Option.some.injEq] at hh
        subst hh
        simp [List.takeWhile_cons]
    rw [hrev, List.append_nil, List.reverse_reverse]
    exact mk_toList t
  · rw [if_neg hlast]
    unfold fileName
    have happ : (base ++ "/" ++ t).toList = base.toList ++ ['/'] ++ t.toList := by
      cases base
      cases t
      rfl
    rw [happ, List.reverse_append]
    have hallrev : ∀ a ∈ t.toList.reverse, (fun c => decide (c ≠ '/')) a = true := by
      intro a ha
      exact (List.all_eq_true.mp ht) a (List.mem_reverse.mp ha)
    rw [takeWhile_app _ _ _ hallrev]
    have hx : ((base.toList ++ ['/']).reverse.takeWhile (fun c => decide (c ≠ '/'))) = [] := by
      rw [List.reverse_append]
      simp
    rw [hx, List.append_nil, List.reverse_reverse]
    exact mk_toList t

/-- Claim C7. -/
theorem c7_build_output_path (path container name : String)
    (h : (trimStr name).toList.all (fun c => c ≠ '/') = true) :
    build_output_path path container (some name) = buildOutputPathSpec path container (some name)
    ∧ build_output_path path container none = buildOutputPathSpec path container none
    ∧ build_output_path "/a/b/clip.mov" "mp4" (some "name") = "/a/b/name.mp4"
    ∧ build_output_path "/a/b/clip.mov" "mp4" none = "/a/b/clip.mov_converted.mp4" := by
  refine ⟨?_, rfl, by decide, by decide⟩
  unfold build_output_path buildOutputPathSpec pathExt
  rw [show ((some name).bind fun a => if trimStr a = "" then none else some (trimStr a)) =
    (if trimStr name = "" then none else some (trimStr name)) from rfl]
  by_cases hts : trimStr name = ""
  · simp [hts]
  · rw [if_neg hts]
    dsimp only
    rw [fileName_pushPath _ _ h hts]
    cases hext : (nameExt (trimStr name)).isNone <;> simp [hext, hts]


theorem c7_witness :
    ((trimStr "name").toList.all (fun c => c ≠ '/') = true)
    ∧ build_output_path "/a/b/clip.mov" "mp4" (some "name") = "/a/b/name.mp4"
    ∧ build_output_path "/a/b/clip.mov" "mp4" none = "/a/b/clip.mov_converted.mp4" := by
  have h := c7_build_output_path "/a/b/clip.mov" "mp4" "name" (by decide)
  exact ⟨by decide, h.2.2.1, h.2.2.2⟩

end Frame
